import Mathlib

/-!
Verification of the ariav3 conversational agent core.

This file is a shallow embedding, in Lean 4, of the parts of the
repository that the specification talks about:

* `src/file_system_tools.py` — the module-level tool functions
  `create_folder`, `create_file`, `edit_file` (plain string results),
  embedded in the `FileSystemTools` namespace;
* `src/Tutorials/11-functionCalling.py` — the `AI_Core` class: its
  private tool methods `_create_folder`, `_create_file`, `_edit_file`
  (dictionary results, embedded in the `AICore` namespace), the turn
  aggregation performed by `receive_text`, the `tts` utterance loop, the
  bounded outbound queue consumed by `send_realtime`, and
  `process_text_input_queue`.

The filesystem is modelled as an explicit state (`FS`): a set of
existing folders plus a map from file paths to their contents, both as
lists.  Exceptions that the underlying OS primitives (`os.makedirs`,
`open`/`write`) may raise are modelled by an explicit oracle of type
`Option String`: `some m` means the primitive raises with message `m`,
`none` means it succeeds.  Python try/except wrappers are modelled by
`Except`-valued bodies plus an explicit catch combinator, so that
"the tool never propagates an exception" is visible in the embedding.

Python string formatting detail: the source quotes paths with single
quotes inside its messages; the embedding concatenates the raw path
without the surrounding quote characters.  The leading status markers
("Error:", "Success:", the `status` field) are kept verbatim, since the
claims are about the status of a result, not about quoting.
-/

/-- Status field of an `AI_Core` tool-result dictionary. -/
inductive ToolStatus where
  | success
  | skipped
  | error
deriving DecidableEq, Repr

/-- `{status, message}` dictionary returned by the `AI_Core._*` tool
methods. -/
structure ToolResult where
  status : ToolStatus
  message : String
deriving DecidableEq, Repr

/-- Abstract filesystem state: the folders that exist and the files that
exist together with their byte contents (bytes modelled as `String`). -/
structure FS where
  folders : List String
  files : List (String × String)
deriving DecidableEq, Repr

/-- `os.path.exists`: true when the path is an existing folder or an
existing file. -/
def FS.pathExists (fs : FS) (p : String) : Bool :=
  fs.folders.contains p || (fs.files.map Prod.fst).contains p

/-- Contents of the file at `p`, if `p` is an existing file. -/
def FS.readFile (fs : FS) (p : String) : Option String :=
  (fs.files.find? (fun e => e.1 == p)).map Prod.snd

/-- Overwrite (or create) the file at `p` with contents `s`. -/
def FS.setFile (fs : FS) (p s : String) : FS :=
  { fs with files := (p, s) :: fs.files.filter (fun e => e.1 != p) }

/-- `os.makedirs`: record the folder as existing. -/
def FS.mkdir (fs : FS) (p : String) : FS :=
  { fs with folders := p :: fs.folders }

/-- Python `try`/`except` around a tool body returning an `AI_Core`
result dictionary: a raised exception is caught and turned into an
`error` result via `wrap`, the filesystem is left as it was at entry. -/
def tryTool (fs : FS) (wrap : String → String)
    (body : Except String (ToolResult × FS)) : ToolResult × FS :=
  match body with
  | .ok r => r
  | .error m => (⟨.error, wrap m⟩, fs)

/-- Python `try`/`except` around a tool body returning a plain string
result (the `file_system_tools` module style). -/
def tryToolStr (fs : FS) (wrap : String → String)
    (body : Except String (String × FS)) : String × FS :=
  match body with
  | .ok r => r
  | .error m => (wrap m, fs)

/-- Body of `file_system_tools.create_folder` up to the `except` clause.
`exc` is the oracle for `os.makedirs`. -/
def FileSystemTools.createFolderBody (exc : Option String) (fs : FS)
    (folder_path : String) : Except String (String × FS) :=
  if folder_path = "" then .ok ("Error: Invalid folder path provided.", fs)
  else if fs.pathExists folder_path then
    .ok ("Error: Folder " ++ folder_path ++ " already exists.", fs)
  else
    match exc with
    | some m => .error m
    | none => .ok ("Success: Folder " ++ folder_path ++ " created.", fs.mkdir folder_path)

/-- `file_system_tools.create_folder` (src/file_system_tools.py, lines
3–23): note that an already-existing target yields an "Error: ...
already exists." string. -/
def FileSystemTools.create_folder (exc : Option String) (fs : FS)
    (folder_path : String) : String × FS :=
  tryToolStr fs
    (fun m => "Error: Failed to create folder " ++ folder_path ++ ". Reason: " ++ m)
    (FileSystemTools.createFolderBody exc fs folder_path)

/-- Body of `file_system_tools.create_file` up to the `except` clause.
`exc` is the oracle for `open(file_path, w)`/`write`. -/
def FileSystemTools.createFileBody (exc : Option String) (fs : FS)
    (file_path content : String) : Except String (String × FS) :=
  if file_path = "" then .ok ("Error: Invalid file path provided.", fs)
  else if fs.pathExists file_path then
    .ok ("Error: File " ++ file_path ++ " already exists.", fs)
  else
    match exc with
    | some m => .error m
    | none => .ok ("Success: File " ++ file_path ++ " created.", fs.setFile file_path content)

/-- `file_system_tools.create_file` (src/file_system_tools.py, lines
25–47). -/
def FileSystemTools.create_file (exc : Option String) (fs : FS)
    (file_path content : String) : String × FS :=
  tryToolStr fs
    (fun m => "Error: Failed to create file " ++ file_path ++ ". Reason: " ++ m)
    (FileSystemTools.createFileBody exc fs file_path content)

/-- Body of `file_system_tools.edit_file` up to the `except` clause.
When the path exists but is a folder, `open(file_path, a)` raises
(IsADirectoryError); when it is a file, the oracle `exc` decides whether
the append raises. -/
def FileSystemTools.editFileBody (exc : Option String) (fs : FS)
    (file_path content : String) : Except String (String × FS) :=
  if file_path = "" then .ok ("Error: Invalid file path provided.", fs)
  else if fs.pathExists file_path = false then
    .ok ("Error: File " ++ file_path ++ " does not exist. Please create it first.", fs)
  else
    match fs.readFile file_path with
    | none => .error "Is a directory"
    | some old =>
      match exc with
      | some m => .error m
      | none =>
        .ok ("Success: Content appended to file " ++ file_path ++ ".",
          fs.setFile file_path (old ++ content))

/-- `file_system_tools.edit_file` (src/file_system_tools.py, lines
49–71). -/
def FileSystemTools.edit_file (exc : Option String) (fs : FS)
    (file_path content : String) : String × FS :=
  tryToolStr fs
    (fun m => "Error: Failed to edit file " ++ file_path ++ ". Reason: " ++ m)
    (FileSystemTools.editFileBody exc fs file_path content)

/-- A `file_system_tools` result string reports failure exactly when it
starts with the "Error" marker the module prefixes to every failure
path. -/
def isErrorResult (s : String) : Bool :=
  decide ("Error".data <+: s.data)

/-- Body of `AI_Core._create_folder` up to the `except` clause
(src/Tutorials/11-functionCalling.py, lines 149–164). -/
def AICore.createFolderBody (exc : Option String) (fs : FS)
    (folder_path : String) : Except String (ToolResult × FS) :=
  if folder_path = "" then .ok (⟨.error, "Invalid folder path provided."⟩, fs)
  else if fs.pathExists folder_path then
    .ok (⟨.skipped, "The folder " ++ folder_path ++ " already exists."⟩, fs)
  else
    match exc with
    | some m => .error m
    | none =>
      .ok (⟨.success, "Successfully created the folder at " ++ folder_path ++ "."⟩,
        fs.mkdir folder_path)

/-- `AI_Core._create_folder`: an already-existing target is `skipped`,
a raised exception becomes an `error` result. -/
def AICore.create_folder (exc : Option String) (fs : FS)
    (folder_path : String) : ToolResult × FS :=
  tryTool fs (fun m => "An error occurred: " ++ m)
    (AICore.createFolderBody exc fs folder_path)

/-- Body of `AI_Core._create_file` up to the `except` clause
(src/Tutorials/11-functionCalling.py, lines 166–182). -/
def AICore.createFileBody (exc : Option String) (fs : FS)
    (file_path content : String) : Except String (ToolResult × FS) :=
  if file_path = "" then .ok (⟨.error, "Invalid file path provided."⟩, fs)
  else if fs.pathExists file_path then
    .ok (⟨.skipped, "The file " ++ file_path ++ " already exists."⟩, fs)
  else
    match exc with
    | some m => .error m
    | none =>
      .ok (⟨.success, "Successfully created the file at " ++ file_path ++ "."⟩,
        fs.setFile file_path content)

/-- `AI_Core._create_file`. -/
def AICore.create_file (exc : Option String) (fs : FS)
    (file_path content : String) : ToolResult × FS :=
  tryTool fs (fun m => "An error occurred while creating the file: " ++ m)
    (AICore.createFileBody exc fs file_path content)

/-- Body of `AI_Core._edit_file` up to the `except` clause
(src/Tutorials/11-functionCalling.py, lines 184–200). -/
def AICore.editFileBody (exc : Option String) (fs : FS)
    (file_path content : String) : Except String (ToolResult × FS) :=
  if file_path = "" then .ok (⟨.error, "Invalid file path provided."⟩, fs)
  else if fs.pathExists file_path = false then
    .ok (⟨.error, "The file " ++ file_path ++ " does not exist. Please create it first."⟩, fs)
  else
    match fs.readFile file_path with
    | none => .error "Is a directory"
    | some old =>
      match exc with
      | some m => .error m
      | none =>
        .ok (⟨.success, "Successfully appended content to the file at " ++ file_path ++ "."⟩,
          fs.setFile file_path (old ++ content))

/-- `AI_Core._edit_file`: a non-existent target is an `error`, an
existing file gets `content` appended after its previous contents. -/
def AICore.edit_file (exc : Option String) (fs : FS)
    (file_path content : String) : ToolResult × FS :=
  tryTool fs (fun m => "An error occurred while editing the file: " ++ m)
    (AICore.editFileBody exc fs file_path content)

/-- If a file is present in the filesystem then `os.path.exists` is true
for its path. -/
theorem FS.readFile_some_pathExists (fs : FS) (p old : String)
    (h : fs.readFile p = some old) : fs.pathExists p = true := by
  unfold FS.readFile at h
  unfold FS.pathExists
  rcases h1 : fs.files.find? (fun e => e.1 == p) with _ | e
  · rw [h1] at h; simp at h
  · have hmem := List.mem_of_find?_eq_some h1
    have heq := List.find?_some h1
    have hp : e.1 = p := beq_iff_eq.1 heq
    simp only [Bool.or_eq_true, List.contains_iff_exists_mem_beq]
    refine Or.inr ⟨e.1, ?_, by simp [hp]⟩
    exact List.mem_map.2 ⟨e, hmem, rfl⟩

/-- Appending more text to an error-marked string keeps the marker. -/
theorem isErrorResult_append (s t : String) (h : isErrorResult s = true) :
    isErrorResult (s ++ t) = true := by
  unfold isErrorResult at h ⊢
  rw [String.data_append]
  have hp : "Error".data <+: s.data := of_decide_eq_true h
  exact decide_eq_true (hp.trans (List.prefix_append s.data t.data))

/-- A folder just created by `os.makedirs` exists. -/
theorem FS.pathExists_mkdir (fs : FS) (p : String) :
    (fs.mkdir p).pathExists p = true := by
  simp [FS.mkdir, FS.pathExists]

/-- A file just written exists. -/
theorem FS.pathExists_setFile (fs : FS) (p c : String) :
    (fs.setFile p c).pathExists p = true := by
  simp [FS.setFile, FS.pathExists]

/-- Reading back a file just written yields what was written. -/
theorem FS.readFile_setFile (fs : FS) (p c : String) :
    (fs.setFile p c).readFile p = some c := by
  simp [FS.setFile, FS.readFile]

/-- C1 (amended): for every nonempty path not yet existing, and assuming
the underlying `os.makedirs` / `open`-and-write raises no exception on
the first call, the `AI_Core` tool methods `_create_folder` and
`_create_file` are idempotent: the first call returns `success`, the
second call on the same path returns `skipped` (whatever the second
call's primitives would do); in general, creating an already-existing
target through these methods returns `skipped`.  The module-level
`file_system_tools.create_folder`/`create_file` do NOT satisfy this:
on an already-existing target they return an error result (see the
counterexample). -/
theorem create_tools_idempotent (exc2 exc3 : Option String) (fs : FS)
    (p content : String) (hp : p ≠ "") (hex : fs.pathExists p = false) :
    ((AICore.create_folder none fs p).1.status = ToolStatus.success ∧
     (AICore.create_folder exc2 (AICore.create_folder none fs p).2 p).1.status =
       ToolStatus.skipped) ∧
    ((AICore.create_file none fs p content).1.status = ToolStatus.success ∧
     (AICore.create_file exc3 (AICore.create_file none fs p content).2 p content).1.status =
       ToolStatus.skipped) ∧
    (∀ fs2 : FS, ∀ q : String, q ≠ "" → fs2.pathExists q = true →
       (AICore.create_folder exc2 fs2 q).1.status = ToolStatus.skipped ∧
       (AICore.create_file exc3 fs2 q content).1.status = ToolStatus.skipped) := by
  refine ⟨⟨?_, ?_⟩, ⟨?_, ?_⟩, ?_⟩
  · simp [AICore.create_folder, AICore.createFolderBody, tryTool, hp, hex]
  · simp [AICore.create_folder, AICore.createFolderBody, tryTool, hp, hex,
      FS.pathExists_mkdir]
  · simp [AICore.create_file, AICore.createFileBody, tryTool, hp, hex]
  · simp [AICore.create_file, AICore.createFileBody, tryTool, hp, hex,
      FS.pathExists_setFile]
  · intro fs2 q hq hex2
    constructor
    · simp [AICore.create_folder, AICore.createFolderBody, tryTool, hq, hex2]
    · simp [AICore.create_file, AICore.createFileBody, tryTool, hq, hex2]

/-- C1 witness: concrete instantiation of `create_tools_idempotent` on an
empty filesystem and path "p". -/
theorem create_tools_idempotent_witness :
    (AICore.create_folder none ⟨[], []⟩ "p").1.status = ToolStatus.success ∧
    (AICore.create_folder none (AICore.create_folder none ⟨[], []⟩ "p").2 "p").1.status =
      ToolStatus.skipped ∧
    (AICore.create_file none ⟨[], []⟩ "p" "hi").1.status = ToolStatus.success ∧
    (AICore.create_file none (AICore.create_file none ⟨[], []⟩ "p" "hi").2 "p" "hi").1.status =
      ToolStatus.skipped := by
  have h := create_tools_idempotent none none ⟨[], []⟩ "p" "hi" (by decide) (by decide)
  exact ⟨h.1.1, h.1.2, h.2.1.1, h.2.1.2⟩

/-- C1 counterexample: the claim as stated fails on the code.  On the
module-level `file_system_tools.create_folder`, a second call with the
same path returns an "Error: ... already exists." result, not a skipped
one.  Moreover even for `AI_Core._create_folder` the empty path gives an
error result twice, and a first call whose `os.makedirs` raises gives an
error result. -/
theorem create_folder_counterexample :
    (FileSystemTools.create_folder none ⟨[], []⟩ "p").1 = "Success: Folder p created." ∧
    (FileSystemTools.create_folder none
        (FileSystemTools.create_folder none ⟨[], []⟩ "p").2 "p").1 =
      "Error: Folder p already exists." ∧
    isErrorResult (FileSystemTools.create_folder none
        (FileSystemTools.create_folder none ⟨[], []⟩ "p").2 "p").1 = true ∧
    (FileSystemTools.create_file none
        (FileSystemTools.create_file none ⟨[], []⟩ "n.txt" "hi").2 "n.txt" "hi").1 =
      "Error: File n.txt already exists." ∧
    (AICore.create_folder none ⟨[], []⟩ "").1.status = ToolStatus.error ∧
    (AICore.create_folder (some "disk full") ⟨[], []⟩ "p").1.status = ToolStatus.error := by
  refine ⟨by decide, by decide, by decide, by decide, rfl, rfl⟩

/-- C4: `edit_file` (both the `AI_Core._edit_file` method and the
module-level `file_system_tools.edit_file`) returns an error result on a
non-existent path, leaving the filesystem unchanged; and on an existing
file (assuming the underlying append raises no exception) the pre-call
contents are a prefix of the post-call contents, with `content` appended
after them. -/
theorem edit_file_spec (exc : Option String) (fs : FS) (p content old : String) :
    (fs.pathExists p = false →
       (AICore.edit_file exc fs p content).1.status = ToolStatus.error ∧
       (AICore.edit_file exc fs p content).2 = fs ∧
       isErrorResult (FileSystemTools.edit_file exc fs p content).1 = true ∧
       (FileSystemTools.edit_file exc fs p content).2 = fs) ∧
    (p ≠ "" → fs.readFile p = some old →
       (AICore.edit_file none fs p content).1.status = ToolStatus.success ∧
       (AICore.edit_file none fs p content).2.readFile p = some (old ++ content) ∧
       (FileSystemTools.edit_file none fs p content).2.readFile p = some (old ++ content) ∧
       old.data <+: ((old ++ content).data)) := by
  constructor
  · intro hex
    by_cases hp : p = ""
    · subst hp
      refine ⟨rfl, rfl, ?_, rfl⟩
      show isErrorResult "Error: Invalid file path provided." = true
      decide
    · refine ⟨?_, ?_, ?_, ?_⟩
      · simp [AICore.edit_file, AICore.editFileBody, tryTool, hp, hex]
      · simp [AICore.edit_file, AICore.editFileBody, tryTool, hp, hex]
      · simp only [FileSystemTools.edit_file, FileSystemTools.editFileBody, tryToolStr,
          hp, hex, if_false, if_true, ite_false, ite_true]
        have h1 : isErrorResult ("Error: File " ++ p) = true := by
          apply isErrorResult_append
          decide
        have h2 := isErrorResult_append ("Error: File " ++ p)
          " does not exist. Please create it first." h1
        simpa using h2
      · simp [FileSystemTools.edit_file, FileSystemTools.editFileBody, tryToolStr, hp, hex]
  · intro hp hread
    have hex : fs.pathExists p = true := FS.readFile_some_pathExists fs p old hread
    refine ⟨?_, ?_, ?_, ?_⟩
    · simp [AICore.edit_file, AICore.editFileBody, tryTool, hp, hex, hread]
    · simp [AICore.edit_file, AICore.editFileBody, tryTool, hp, hex, hread,
        FS.readFile_setFile]
    · simp [FileSystemTools.edit_file, FileSystemTools.editFileBody, tryToolStr, hp, hex,
        hread, FS.readFile_setFile]
    · rw [String.data_append]
      exact List.prefix_append old.data content.data

/-- C4 witness: concrete instantiation of `edit_file_spec`: editing a
missing path errors and leaves the state alone; editing the existing
file "a.txt" holding "hi" with "!!" appends. -/
theorem edit_file_spec_witness :
    (AICore.edit_file none ⟨[], [("a.txt", "hi")]⟩ "nope" "x").1.status = ToolStatus.error ∧
    (AICore.edit_file none ⟨[], [("a.txt", "hi")]⟩ "nope" "x").2 = ⟨[], [("a.txt", "hi")]⟩ ∧
    (AICore.edit_file none ⟨[], [("a.txt", "hi")]⟩ "a.txt" "!!").2.readFile "a.txt" =
      some "hi!!" := by
  refine ⟨((edit_file_spec none ⟨[], [("a.txt", "hi")]⟩ "nope" "x" "hi").1 (by decide)).1,
    ((edit_file_spec none ⟨[], [("a.txt", "hi")]⟩ "nope" "x" "hi").1 (by decide)).2.1,
    ?_⟩
  have h := ((edit_file_spec none ⟨[], [("a.txt", "hi")]⟩ "a.txt" "!!" "hi").2
    (by decide) (by decide)).2.1
  exact h.trans (by decide)

/-- C7: for each of the six local tool functions, whenever the
underlying filesystem operation raises an exception with message `m`,
the exception is caught and the function returns (never raises) an
error result whose message carries `m`. -/
theorem tool_errors_wrapped (exc : Option String) (fs : FS) (p content m : String) :
    (AICore.createFolderBody exc fs p = Except.error m →
       AICore.create_folder exc fs p = (⟨ToolStatus.error, "An error occurred: " ++ m⟩, fs)) ∧
    (AICore.createFileBody exc fs p content = Except.error m →
       AICore.create_file exc fs p content =
         (⟨ToolStatus.error, "An error occurred while creating the file: " ++ m⟩, fs)) ∧
    (AICore.editFileBody exc fs p content = Except.error m →
       AICore.edit_file exc fs p content =
         (⟨ToolStatus.error, "An error occurred while editing the file: " ++ m⟩, fs)) ∧
    (FileSystemTools.createFolderBody exc fs p = Except.error m →
       FileSystemTools.create_folder exc fs p =
         ("Error: Failed to create folder " ++ p ++ ". Reason: " ++ m, fs)) ∧
    (FileSystemTools.createFileBody exc fs p content = Except.error m →
       FileSystemTools.create_file exc fs p content =
         ("Error: Failed to create file " ++ p ++ ". Reason: " ++ m, fs)) ∧
    (FileSystemTools.editFileBody exc fs p content = Except.error m →
       FileSystemTools.edit_file exc fs p content =
         ("Error: Failed to edit file " ++ p ++ ". Reason: " ++ m, fs)) := by
  refine ⟨?_, ?_, ?_, ?_, ?_, ?_⟩ <;> intro h
  · simp [AICore.create_folder, tryTool, h]
  · simp [AICore.create_file, tryTool, h]
  · simp [AICore.edit_file, tryTool, h]
  · simp [FileSystemTools.create_folder, tryToolStr, h]
  · simp [FileSystemTools.create_file, tryToolStr, h]
  · simp [FileSystemTools.edit_file, tryToolStr, h]

/-- C7 witness: a raised `os.makedirs` exception ("boom") on a fresh
path comes back as a caught error result. -/
theorem tool_errors_wrapped_witness :
    AICore.create_folder (some "boom") ⟨[], []⟩ "d" =
      (⟨ToolStatus.error, "An error occurred: boom"⟩, ⟨[], []⟩) := by
  have h := (tool_errors_wrapped (some "boom") ⟨[], []⟩ "d" "c" "boom").1 (by rfl)
  exact h.trans (by decide)

/-- `sub in s` for python strings, as used on line 308 of
`11-functionCalling.py`. -/
def containsSubstr (s sub : String) : Bool :=
  decide (sub.data <:+: s.data)

/-- The executed-code heuristic of `AI_Core.receive_text` (line 308):
a fragment counts as executed code when it contains a print call, a
newline, or an import statement. -/
def isExecutedCode (code : String) : Bool :=
  containsSubstr code "print(" || containsSubstr code "\n" || containsSubstr code "import "

/-- A fragment that passes the executed-code heuristic is nonempty. -/
theorem isExecutedCode_ne_empty (code : String) (h : isExecutedCode code = true) :
    code ≠ "" := by
  intro he
  subst he
  revert h
  decide

/-- A function call requested by the model: `fc.id`, `fc.name`,
`fc.args` (string-valued named arguments). -/
structure FunctionCall where
  id : String
  name : String
  args : List (String × String)
deriving DecidableEq, Repr

/-- One entry of the `function_responses` list sent back via
`session.send_tool_response`. -/
structure FunctionResponse where
  id : String
  name : String
  response : ToolResult
deriving DecidableEq, Repr

/-- `args.get(key)` on the argument dictionary. -/
def argLookup (args : List (String × String)) (key : String) : Option String :=
  (args.find? (fun e => e.1 == key)).map Prod.snd

/-- The three tool names `receive_text` dispatches on (lines 252, 264,
277). -/
def knownToolName (n : String) : Bool :=
  n == "create_folder" || n == "create_file" || n == "edit_file"

/-- Dispatch of a single function call inside the tool-call branch of
`receive_text` (lines 251–288): a known name runs the matching
`AI_Core` tool method and yields a response entry; any other name
matches no branch and contributes nothing.  A missing declared-required
argument is modelled as the empty string (both are falsy for the
validity check of the tool). -/
def dispatchOne (exc : Option String) (fs : FS) (fc : FunctionCall) :
    Option FunctionResponse × FS :=
  if fc.name = "create_folder" then
    let folder_path := (argLookup fc.args "folder_path").getD ""
    let r := AICore.create_folder exc fs folder_path
    (some ⟨fc.id, fc.name, r.1⟩, r.2)
  else if fc.name = "create_file" then
    let file_path := (argLookup fc.args "file_path").getD ""
    let content := (argLookup fc.args "content").getD ""
    let r := AICore.create_file exc fs file_path content
    (some ⟨fc.id, fc.name, r.1⟩, r.2)
  else if fc.name = "edit_file" then
    let file_path := (argLookup fc.args "file_path").getD ""
    let content := (argLookup fc.args "content").getD ""
    let r := AICore.edit_file exc fs file_path content
    (some ⟨fc.id, fc.name, r.1⟩, r.2)
  else (none, fs)

/-- The `for fc in chunk.tool_call.function_calls` loop accumulating
`function_responses`. -/
def dispatchCalls (exc : Option String) (fs : FS) :
    List FunctionCall → List FunctionResponse × FS
  | [] => ([], fs)
  | fc :: rest =>
    match dispatchOne exc fs fc with
    | (some r, fs2) =>
      let tail := dispatchCalls exc fs2 rest
      (r :: tail.1, tail.2)
    | (none, fs2) => dispatchCalls exc fs2 rest

/-- One `part` of a `model_turn`: optional executable code and optional
code-execution result. -/
structure MTPart where
  executableCode : Option String
  codeExecResult : Option String
deriving DecidableEq, Repr

/-- One inbound chunk of a turn.  `toolCalls` empty models a chunk
without (effective) tool calls; `groundingUris` are the web uris of the
grounding chunks; `text` empty models an absent/empty text field (both
are falsy in the source). -/
structure Chunk where
  toolCalls : List FunctionCall
  groundingUris : List String
  parts : List MTPart
  text : String
deriving DecidableEq, Repr

/-- Per-turn accumulator of `receive_text`: `turn_urls` (a set, modelled
as an insertion-ordered duplicate-free list), `turn_code_content` and
`turn_code_result` (both initially the empty string). -/
structure TurnState where
  urls : List String
  codeContent : String
  codeResult : String
deriving DecidableEq, Repr

/-- `turn_urls.add(u)` — python set insertion. -/
def TurnState.addUrl (s : TurnState) (u : String) : TurnState :=
  if s.urls.contains u then s else { s with urls := s.urls ++ [u] }

/-- Adding every grounding uri of a chunk. -/
def addUrls (s : TurnState) (us : List String) : TurnState :=
  us.foldl TurnState.addUrl s

/-- Processing one model-turn part (lines 305–316): a fragment passing
the executed-code heuristic replaces `turn_code_content`, otherwise it
is only announced as a search; a present code-execution result replaces
`turn_code_result`. -/
def stepPart (s : TurnState) (p : MTPart) : TurnState :=
  let s1 :=
    match p.executableCode with
    | some code => if isExecutedCode code then { s with codeContent := code } else s
    | none => s
  match p.codeExecResult with
  | some r => { s1 with codeResult := r }
  | none => s1

/-- Processing all parts of a chunk. -/
def stepParts (s : TurnState) (ps : List MTPart) : TurnState :=
  ps.foldl stepPart s

/-- Per-chunk update of the turn accumulator: a chunk with function
calls is answered and then `continue`d, so its server content does not
reach the accumulator. -/
def stepChunkState (s : TurnState) (c : Chunk) : TurnState :=
  if c.toolCalls.isEmpty then stepParts (addUrls s c.groundingUris) c.parts else s

/-- The turn accumulator at end of turn, starting from the empty
accumulator of line 241–243. -/
def turnState (chunks : List Chunk) : TurnState :=
  chunks.foldl stepChunkState ⟨[], "", ""⟩

/-- Observable effects of `receive_text` (signal emissions, queue puts,
session sends) and of `process_text_input_queue`. -/
inductive CoreAction where
  | sendToolResponse (rs : List FunctionResponse)
  | emitText (t : String)
  | ttsPut (t : Option String)
  | emitSearch (urls : List String)
  | emitCode (code result : String)
  | emitEndOfTurn
  | discardTts (t : Option String)
  | discardAudio (b : String)
  | sendClientContent (t : String)
deriving DecidableEq, Repr

/-- Lines 319–321: a chunk with (truthy) text is emitted to the GUI and
enqueued for TTS. -/
def textActions (c : Chunk) : List CoreAction :=
  if c.text = "" then [] else [.emitText c.text, .ttsPut (some c.text)]

/-- The `async for chunk in turn` body of `receive_text` (lines
246–321), as the filesystem update plus the emitted action trace.  A
chunk with function calls is dispatched, answered with
`send_tool_response`, and `continue`d. -/
def processChunksActions (exc : Option String) : FS → List Chunk → FS × List CoreAction
  | fs, [] => (fs, [])
  | fs, c :: cs =>
    if c.toolCalls.isEmpty then
      let tail := processChunksActions exc fs cs
      (tail.1, textActions c ++ tail.2)
    else
      let d := dispatchCalls exc fs c.toolCalls
      let tail := processChunksActions exc d.2 cs
      (tail.1, CoreAction.sendToolResponse d.1 :: tail.2)

/-- The end-of-turn tool-activity emission (lines 324–332): the code
signal wins over the search signal, which wins over clearing both. -/
def endOfTurnEmits (s : TurnState) : List CoreAction :=
  if s.codeContent ≠ "" then [.emitCode s.codeContent s.codeResult, .emitSearch []]
  else if s.urls ≠ [] then [.emitSearch s.urls, .emitCode "" ""]
  else [.emitSearch [], .emitCode "" ""]

/-- One successful iteration of the `receive_text` outer loop on an
inbound turn: the chunk loop, then the tool-activity emission, the
end-of-turn signal, and the TTS sentinel (lines 334–335). -/
def receive_text_turn (exc : Option String) (fs : FS) (chunks : List Chunk) :
    FS × List CoreAction :=
  let body := processChunksActions exc fs chunks
  (body.1,
    body.2 ++ endOfTurnEmits (turnState chunks) ++ [.emitEndOfTurn, .ttsPut none])

/-- Whether a part carries a fragment classified as executed code. -/
def MTPart.hasCode (p : MTPart) : Bool :=
  match p.executableCode with
  | some code => isExecutedCode code
  | none => false

/-- Whether a chunk contributes an executed-code fragment to the turn
accumulator (tool-call chunks are `continue`d and contribute nothing). -/
def Chunk.hasCodeFrag (c : Chunk) : Bool :=
  c.toolCalls.isEmpty && c.parts.any MTPart.hasCode

/-- Whether some chunk of the turn buffers an executed-code fragment. -/
def hasCodeFrag (chunks : List Chunk) : Bool :=
  chunks.any Chunk.hasCodeFrag

/-- The grounding uris a chunk actually contributes (none for tool-call
chunks, which are `continue`d). -/
def Chunk.urlList (c : Chunk) : List String :=
  if c.toolCalls.isEmpty then c.groundingUris else []

/-- Whether some chunk of the turn contributes a grounding uri. -/
def turnHasUrl (chunks : List Chunk) : Bool :=
  chunks.any (fun c => !c.urlList.isEmpty)

/-- Whether the uri `u` is contributed by some chunk of the turn. -/
def turnUrlOccurs (chunks : List Chunk) (u : String) : Bool :=
  chunks.any (fun c => c.urlList.contains u)

/-- Whether an action is one of the two turn-end tool-activity signal
emissions. -/
def CoreAction.isSummary : CoreAction → Bool
  | .emitSearch _ => true
  | .emitCode _ _ => true
  | _ => false

/-- Set insertion never touches the code buffers. -/
theorem TurnState.addUrl_codeContent (s : TurnState) (u : String) :
    (s.addUrl u).codeContent = s.codeContent := by
  unfold TurnState.addUrl
  split <;> rfl

/-- Adding uris never touches the code buffers. -/
theorem addUrls_codeContent (us : List String) (s : TurnState) :
    (addUrls s us).codeContent = s.codeContent := by
  induction us generalizing s with
  | nil => rfl
  | cons u us ih =>
    show (addUrls (s.addUrl u) us).codeContent = s.codeContent
    rw [ih, TurnState.addUrl_codeContent]

/-- Part processing never touches the uri set. -/
theorem stepPart_urls (s : TurnState) (p : MTPart) :
    (stepPart s p).urls = s.urls := by
  unfold stepPart
  rcases p with ⟨ec, cr⟩
  cases ec <;> cases cr <;> dsimp only [] <;> try rfl
  all_goals split <;> rfl

/-- Parts processing never touches the uri set. -/
theorem stepParts_urls (ps : List MTPart) (s : TurnState) :
    (stepParts s ps).urls = s.urls := by
  induction ps generalizing s with
  | nil => rfl
  | cons p ps ih =>
    show (stepParts (stepPart s p) ps).urls = s.urls
    rw [ih, stepPart_urls]

/-- What one part does to the executed-code buffer. -/
theorem stepPart_codeContent (s : TurnState) (p : MTPart) :
    (stepPart s p).codeContent =
      if p.hasCode then p.executableCode.getD "" else s.codeContent := by
  unfold stepPart MTPart.hasCode
  rcases p with ⟨ec, cr⟩
  cases ec <;> cases cr <;> dsimp only [] <;> try rfl
  all_goals split <;> rfl

/-- A part that buffers code buffers a nonempty fragment. -/
theorem MTPart.hasCode_getD_ne (p : MTPart) (h : p.hasCode = true) :
    p.executableCode.getD "" ≠ "" := by
  unfold MTPart.hasCode at h
  cases hec : p.executableCode with
  | none => rw [hec] at h; exact absurd h (by simp)
  | some code =>
    rw [hec] at h
    simpa [hec] using isExecutedCode_ne_empty code h

/-- The executed-code buffer is empty after a run of parts exactly when
it was empty before and no part buffered a fragment. -/
theorem stepParts_codeContent_eq_empty (ps : List MTPart) (s : TurnState) :
    ((stepParts s ps).codeContent = "") ↔
      (s.codeContent = "" ∧ ps.any MTPart.hasCode = false) := by
  induction ps generalizing s with
  | nil => simp [stepParts]
  | cons p ps ih =>
    show ((stepParts (stepPart s p) ps).codeContent = "") ↔ _
    rw [ih]
    by_cases hp : p.hasCode = true
    · have hne := MTPart.hasCode_getD_ne p hp
      simp [stepPart_codeContent, hp, hne]
    · have hp' : p.hasCode = false := by simpa using hp
      simp [stepPart_codeContent, hp']

/-- The executed-code buffer is empty after a chunk exactly when it was
empty before and the chunk carries no classified fragment. -/
theorem stepChunkState_codeContent_eq_empty (c : Chunk) (s : TurnState) :
    ((stepChunkState s c).codeContent = "") ↔
      (s.codeContent = "" ∧ c.hasCodeFrag = false) := by
  unfold stepChunkState Chunk.hasCodeFrag
  by_cases he : c.toolCalls.isEmpty = true
  · rw [if_pos he, stepParts_codeContent_eq_empty, addUrls_codeContent]
    simp [he]
  · have he' : c.toolCalls.isEmpty = false := by simpa using he
    rw [if_neg (by simp [he'])]
    simp [he']

/-- The executed-code buffer at end of turn is empty exactly when no
chunk of the turn buffered a classified fragment. -/
theorem foldl_codeContent_eq_empty (chunks : List Chunk) (s : TurnState) :
    ((chunks.foldl stepChunkState s).codeContent = "") ↔
      (s.codeContent = "" ∧ hasCodeFrag chunks = false) := by
  induction chunks generalizing s with
  | nil => simp [hasCodeFrag]
  | cons c cs ih =>
    show ((cs.foldl stepChunkState (stepChunkState s c)).codeContent = "") ↔ _
    rw [ih, stepChunkState_codeContent_eq_empty]
    simp [hasCodeFrag, and_assoc]

/-- Membership in the uri set after a python set `add`. -/
theorem TurnState.addUrl_mem (s : TurnState) (u v : String) :
    v ∈ (s.addUrl u).urls ↔ (v ∈ s.urls ∨ v = u) := by
  unfold TurnState.addUrl
  by_cases h : s.urls.contains u = true
  · rw [if_pos h]
    have hu : u ∈ s.urls := by simpa using h
    constructor
    · exact Or.inl
    · rintro (hv | rfl)
      · exact hv
      · exact hu
  · rw [if_neg h]
    simp

/-- Python set `add` keeps the modelled set duplicate-free. -/
theorem TurnState.addUrl_nodup (s : TurnState) (u : String) (h : s.urls.Nodup) :
    (s.addUrl u).urls.Nodup := by
  unfold TurnState.addUrl
  by_cases hc : s.urls.contains u = true
  · rw [if_pos hc]; exact h
  · rw [if_neg hc]
    have hu : u ∉ s.urls := by simpa using hc
    simp [List.nodup_append, h, hu]

/-- Membership in the uri set after adding a chunk's uris. -/
theorem addUrls_mem (us : List String) (s : TurnState) (v : String) :
    v ∈ (addUrls s us).urls ↔ (v ∈ s.urls ∨ v ∈ us) := by
  induction us generalizing s with
  | nil => simp [addUrls]
  | cons u us ih =>
    show v ∈ (addUrls (s.addUrl u) us).urls ↔ _
    rw [ih, TurnState.addUrl_mem]
    simp [or_assoc]

/-- Adding a chunk's uris keeps the set duplicate-free. -/
theorem addUrls_nodup (us : List String) (s : TurnState) (h : s.urls.Nodup) :
    (addUrls s us).urls.Nodup := by
  induction us generalizing s with
  | nil => exact h
  | cons u us ih =>
    exact ih (s.addUrl u) (TurnState.addUrl_nodup s u h)

/-- Membership in the uri set after one chunk. -/
theorem stepChunkState_urls_mem (c : Chunk) (s : TurnState) (v : String) :
    v ∈ (stepChunkState s c).urls ↔ (v ∈ s.urls ∨ v ∈ c.urlList) := by
  unfold stepChunkState Chunk.urlList
  by_cases he : c.toolCalls.isEmpty = true
  · rw [if_pos he, if_pos he, stepParts_urls, addUrls_mem]
  · rw [if_neg he, if_neg he]
    simp

/-- One chunk keeps the uri set duplicate-free. -/
theorem stepChunkState_urls_nodup (c : Chunk) (s : TurnState) (h : s.urls.Nodup) :
    (stepChunkState s c).urls.Nodup := by
  unfold stepChunkState
  by_cases he : c.toolCalls.isEmpty = true
  · rw [if_pos he, stepParts_urls]
    exact addUrls_nodup _ _ h
  · rw [if_neg he]; exact h

/-- Membership in the uri set at end of turn. -/
theorem foldl_urls_mem (chunks : List Chunk) (s : TurnState) (v : String) :
    v ∈ (chunks.foldl stepChunkState s).urls ↔
      (v ∈ s.urls ∨ turnUrlOccurs chunks v = true) := by
  induction chunks generalizing s with
  | nil => simp [turnUrlOccurs]
  | cons c cs ih =>
    show v ∈ (cs.foldl stepChunkState (stepChunkState s c)).urls ↔ _
    rw [ih, stepChunkState_urls_mem]
    unfold turnUrlOccurs
    simp [or_assoc]

/-- The uri set at end of turn is duplicate-free. -/
theorem foldl_urls_nodup (chunks : List Chunk) (s : TurnState) (h : s.urls.Nodup) :
    (chunks.foldl stepChunkState s).urls.Nodup := by
  induction chunks generalizing s with
  | nil => exact h
  | cons c cs ih =>
    exact ih (stepChunkState s c) (stepChunkState_urls_nodup c s h)

/-- The chunk loop itself emits no tool-activity signal; those are
reserved for turn end. -/
theorem processChunksActions_no_summary (exc : Option String) (cs : List Chunk) (fs : FS) :
    (processChunksActions exc fs cs).2.filter CoreAction.isSummary = [] := by
  induction cs generalizing fs with
  | nil => rfl
  | cons c cs ih =>
    show ((processChunksActions exc fs (c :: cs)).2.filter CoreAction.isSummary) = []
    unfold processChunksActions
    by_cases he : c.toolCalls.isEmpty = true
    · rw [if_pos he]
      dsimp only []
      rw [List.filter_append, ih]
      unfold textActions
      split <;> simp [CoreAction.isSummary]
    · rw [if_neg he]
      dsimp only []
      rw [List.filter_cons]
      simp only [CoreAction.isSummary]
      exact ih _

/-- If some chunk contributes a uri then the end-of-turn uri set is
nonempty. -/
theorem turnHasUrl_urls_ne (chunks : List Chunk) (h : turnHasUrl chunks = true) :
    (turnState chunks).urls ≠ [] := by
  unfold turnHasUrl at h
  rcases List.any_eq_true.1 h with ⟨c, hc, hne⟩
  have : ∃ u, u ∈ c.urlList := by
    cases hu : c.urlList with
    | nil => rw [hu] at hne; simp at hne
    | cons u us => exact ⟨u, List.mem_cons_self u us⟩
  rcases this with ⟨u, hu⟩
  have : u ∈ (turnState chunks).urls := by
    rw [turnState, foldl_urls_mem]
    refine Or.inr ?_
    exact List.any_eq_true.2 ⟨c, hc, by simpa using hu⟩
  intro hnil
  rw [hnil] at this
  simp at this

/-- If no chunk contributes a uri then the end-of-turn uri set is
empty. -/
theorem turnHasUrl_false_urls_nil (chunks : List Chunk) (h : turnHasUrl chunks = false) :
    (turnState chunks).urls = [] := by
  rw [List.eq_nil_iff_forall_not_mem]
  intro u hu
  rw [turnState, foldl_urls_mem] at hu
  rcases hu with hu | hu
  · simp at hu
  · rcases List.any_eq_true.1 hu with ⟨c, hc, hcc⟩
    unfold turnHasUrl at h
    have := List.any_eq_false.1 h c hc
    rcases hl : c.urlList with _ | ⟨v, vs⟩
    · rw [hl] at hcc; simp at hcc
    · rw [hl] at this; simp at this

/-- C2: each turn ends with exactly one tool-activity summary (one
search signal plus one code signal, emitted only at turn end), chosen by
precedence: a buffered executed-code fragment makes the summary a code
one (the search signal is cleared) even when grounding uris were also
collected; otherwise collected grounding uris make it a search one over
the deduplicated uri set; otherwise both signals are cleared. -/
theorem turn_summary_precedence (exc : Option String) (fs : FS) (chunks : List Chunk) :
    ((receive_text_turn exc fs chunks).2.filter CoreAction.isSummary =
       endOfTurnEmits (turnState chunks)) ∧
    (hasCodeFrag chunks = true →
       endOfTurnEmits (turnState chunks) =
         [CoreAction.emitCode (turnState chunks).codeContent (turnState chunks).codeResult,
          CoreAction.emitSearch []] ∧
       (turnState chunks).codeContent ≠ "") ∧
    (hasCodeFrag chunks = false → turnHasUrl chunks = true →
       endOfTurnEmits (turnState chunks) =
         [CoreAction.emitSearch (turnState chunks).urls, CoreAction.emitCode "" ""] ∧
       (turnState chunks).urls ≠ [] ∧
       (turnState chunks).urls.Nodup ∧
       (∀ u, u ∈ (turnState chunks).urls ↔ turnUrlOccurs chunks u = true)) ∧
    (hasCodeFrag chunks = false → turnHasUrl chunks = false →
       endOfTurnEmits (turnState chunks) =
         [CoreAction.emitSearch [], CoreAction.emitCode "" ""]) := by
  refine ⟨?_, ?_, ?_, ?_⟩
  · unfold receive_text_turn
    dsimp only []
    rw [List.filter_append, List.filter_append,
      processChunksActions_no_summary exc chunks fs]
    have h2 : ([CoreAction.emitEndOfTurn,
        CoreAction.ttsPut none].filter CoreAction.isSummary) = [] := rfl
    rw [h2]
    have h3 : (endOfTurnEmits (turnState chunks)).filter CoreAction.isSummary =
        endOfTurnEmits (turnState chunks) := by
      unfold endOfTurnEmits
      split
      · rfl
      · split <;> rfl
    rw [h3]
    simp
  · intro h
    have hcc : (turnState chunks).codeContent ≠ "" := by
      intro he
      have := (foldl_codeContent_eq_empty chunks ⟨[], "", ""⟩).1 he
      rw [h] at this
      exact absurd this.2 (by simp)
    refine ⟨?_, hcc⟩
    unfold endOfTurnEmits
    rw [if_pos hcc]
  · intro h1 h2
    have hcc : (turnState chunks).codeContent = "" :=
      (foldl_codeContent_eq_empty chunks ⟨[], "", ""⟩).2 ⟨rfl, h1⟩
    have hne := turnHasUrl_urls_ne chunks h2
    refine ⟨?_, hne, ?_, ?_⟩
    · unfold endOfTurnEmits
      rw [if_neg (by simp [hcc]), if_pos hne]
    · exact foldl_urls_nodup chunks ⟨[], "", ""⟩ List.nodup_nil
    · intro u
      rw [turnState, foldl_urls_mem]
      simp
  · intro h1 h2
    have hcc : (turnState chunks).codeContent = "" :=
      (foldl_codeContent_eq_empty chunks ⟨[], "", ""⟩).2 ⟨rfl, h1⟩
    have hnil := turnHasUrl_false_urls_nil chunks h2
    unfold endOfTurnEmits
    rw [if_neg (by simp [hcc]), if_neg (by simp [hnil])]

/-- C2 witness: a turn carrying both a grounding uri and an
executed-code fragment summarises as code execution, not search. -/
theorem turn_summary_precedence_witness :
    endOfTurnEmits (turnState
        [⟨[], ["https://a.example"], [⟨some "print(1)", some "1"⟩], "ok"⟩]) =
      [CoreAction.emitCode "print(1)" "1", CoreAction.emitSearch []] := by
  have h := (turn_summary_precedence none ⟨[], []⟩
    [⟨[], ["https://a.example"], [⟨some "print(1)", some "1"⟩], "ok"⟩]).2.1 (by decide)
  exact h.1.trans (by decide)

/-- C5: an executable-code fragment is classified as executed code
exactly when it contains the substring "print(", a newline, or the
substring "import "; a classified fragment replaces the code buffer,
an unclassified one leaves it untouched; and a turn with no classified
fragment ends with an empty code buffer, so its summary never surfaces
any code (the code signal is the cleared one). -/
theorem executed_code_heuristic (code : String) (s : TurnState) (r : Option String)
    (chunks : List Chunk) :
    (isExecutedCode code = true ↔
       ("print(".data <:+: code.data ∨ "\n".data <:+: code.data ∨
        "import ".data <:+: code.data)) ∧
    ((stepPart s ⟨some code, r⟩).codeContent =
       if isExecutedCode code then code else s.codeContent) ∧
    (hasCodeFrag chunks = false →
       (turnState chunks).codeContent = "" ∧
       (∀ cc cr, CoreAction.emitCode cc cr ∈ endOfTurnEmits (turnState chunks) →
          cc = "")) := by
  refine ⟨?_, ?_, ?_⟩
  · simp only [isExecutedCode, containsSubstr, Bool.or_eq_true, decide_eq_true_eq]
    exact or_assoc
  · rw [stepPart_codeContent]
    simp only [MTPart.hasCode]
    split <;> rfl
  · intro h
    have hcc : (turnState chunks).codeContent = "" :=
      (foldl_codeContent_eq_empty chunks ⟨[], "", ""⟩).2 ⟨rfl, h⟩
    refine ⟨hcc, ?_⟩
    intro cc cr hmem
    unfold endOfTurnEmits at hmem
    rw [if_neg (by simp [hcc])] at hmem
    by_cases hu : (turnState chunks).urls ≠ []
    · rw [if_pos hu] at hmem
      simp at hmem
      exact hmem.1
    · rw [if_neg hu] at hmem
      simp at hmem
      exact hmem.1

/-- C5 witness: "print(2+2)" is classified as executed code,
"capital of France" is not and a turn containing only the latter ends
with an empty code buffer. -/
theorem executed_code_heuristic_witness :
    isExecutedCode "print(2+2)" = true ∧
    isExecutedCode "capital of France" = false ∧
    (turnState [⟨[], [], [⟨some "capital of France", none⟩], ""⟩]).codeContent = "" := by
  refine ⟨by decide, by decide, ?_⟩
  exact ((executed_code_heuristic "x" ⟨[], "", ""⟩ none
    [⟨[], [], [⟨some "capital of France", none⟩], ""⟩]).2.2 (by decide)).1

/-- A function call whose name matches no dispatch branch produces no
response and leaves the filesystem alone. -/
theorem dispatchOne_unknown (exc : Option String) (fs : FS) (fc : FunctionCall)
    (h : knownToolName fc.name = false) :
    dispatchOne exc fs fc = (none, fs) := by
  unfold knownToolName at h
  simp only [Bool.or_eq_false_iff, beq_eq_false_iff_ne, ne_eq] at h
  unfold dispatchOne
  rw [if_neg h.1.1, if_neg h.1.2, if_neg h.2]

/-- A function call with a known name produces a response entry carrying
that name. -/
theorem dispatchOne_known (exc : Option String) (fs : FS) (fc : FunctionCall)
    (h : knownToolName fc.name = true) :
    ∃ r fs2, dispatchOne exc fs fc = (some r, fs2) ∧ r.name = fc.name := by
  unfold dispatchOne
  by_cases h1 : fc.name = "create_folder"
  · rw [if_pos h1]; exact ⟨_, _, rfl, rfl⟩
  · rw [if_neg h1]
    by_cases h2 : fc.name = "create_file"
    · rw [if_pos h2]; exact ⟨_, _, rfl, rfl⟩
    · rw [if_neg h2]
      by_cases h3 : fc.name = "edit_file"
      · rw [if_pos h3]; exact ⟨_, _, rfl, rfl⟩
      · exfalso
        unfold knownToolName at h
        simp [h1, h2, h3] at h

/-- Unfolding of the dispatch loop over an answered call. -/
theorem dispatchCalls_cons_some (exc : Option String) (fs fs2 : FS)
    (fc : FunctionCall) (rest : List FunctionCall) (r : FunctionResponse)
    (heq : dispatchOne exc fs fc = (some r, fs2)) :
    dispatchCalls exc fs (fc :: rest) =
      (r :: (dispatchCalls exc fs2 rest).1, (dispatchCalls exc fs2 rest).2) := by
  conv_lhs => rw [dispatchCalls]
  rw [heq]

/-- Unfolding of the dispatch loop over an ignored call. -/
theorem dispatchCalls_cons_none (exc : Option String) (fs fs2 : FS)
    (fc : FunctionCall) (rest : List FunctionCall)
    (heq : dispatchOne exc fs fc = (none, fs2)) :
    dispatchCalls exc fs (fc :: rest) = dispatchCalls exc fs2 rest := by
  conv_lhs => rw [dispatchCalls]
  rw [heq]

/-- Unfolding of the chunk loop over a tool-call chunk. -/
theorem processChunksActions_cons_tool (exc : Option String) (fs : FS)
    (c : Chunk) (cs : List Chunk) (he : c.toolCalls.isEmpty = false) :
    processChunksActions exc fs (c :: cs) =
      ((processChunksActions exc (dispatchCalls exc fs c.toolCalls).2 cs).1,
       CoreAction.sendToolResponse (dispatchCalls exc fs c.toolCalls).1 ::
         (processChunksActions exc (dispatchCalls exc fs c.toolCalls).2 cs).2) := by
  conv_lhs => rw [processChunksActions]
  rw [if_neg (by simp [he])]

/-- C10: function calls with unrecognised names contribute no entry to
the tool-response list (filtering them away changes nothing, and every
produced entry carries a known name — they are silently ignored rather
than answered with an error); and the tool response of a tool-call
chunk — possibly an empty list — is still sent back before any action
of the remaining chunks of the turn. -/
theorem unknown_tool_calls_ignored (exc : Option String) (fs : FS)
    (fcs : List FunctionCall) (c : Chunk) (cs : List Chunk) :
    (dispatchCalls exc fs fcs =
       dispatchCalls exc fs (fcs.filter (fun fc => knownToolName fc.name))) ∧
    (∀ r ∈ (dispatchCalls exc fs fcs).1, knownToolName r.name = true) ∧
    (c.toolCalls ≠ [] →
       (processChunksActions exc fs (c :: cs)).2 =
         CoreAction.sendToolResponse (dispatchCalls exc fs c.toolCalls).1 ::
           (processChunksActions exc (dispatchCalls exc fs c.toolCalls).2 cs).2) := by
  refine ⟨?_, ?_, ?_⟩
  · induction fcs generalizing fs with
    | nil => rfl
    | cons fc rest ih =>
      by_cases hk : knownToolName fc.name = true
      · rcases dispatchOne_known exc fs fc hk with ⟨r, fs2, heq, _⟩
        simp only [List.filter_cons, hk, if_true]
        rw [dispatchCalls_cons_some exc fs fs2 fc rest r heq,
          dispatchCalls_cons_some exc fs fs2 fc _ r heq, ih fs2]
      · have hk' : knownToolName fc.name = false := by simpa using hk
        simp only [List.filter_cons, hk', Bool.false_eq_true, if_false]
        rw [dispatchCalls_cons_none exc fs fs fc rest (dispatchOne_unknown exc fs fc hk'),
          ih fs]
  · induction fcs generalizing fs with
    | nil => intro r hr; exact absurd hr (by simp [dispatchCalls])
    | cons fc rest ih =>
      intro r hr
      by_cases hk : knownToolName fc.name = true
      · rcases dispatchOne_known exc fs fc hk with ⟨r2, fs2, heq, hname⟩
        rw [dispatchCalls_cons_some exc fs fs2 fc rest r2 heq] at hr
        rcases List.mem_cons.1 hr with rfl | hr
        · rw [hname]; exact hk
        · exact ih fs2 r hr
      · have hk' : knownToolName fc.name = false := by simpa using hk
        rw [dispatchCalls_cons_none exc fs fs fc rest
          (dispatchOne_unknown exc fs fc hk')] at hr
        exact ih fs r hr
  · intro hne
    have he : c.toolCalls.isEmpty = false := by
      cases hc : c.toolCalls with
      | nil => exact absurd hc hne
      | cons a l => rfl
    rw [processChunksActions_cons_tool exc fs c cs he]

/-- C10 witness: a chunk whose only call is the unrecognised
"frobnicate" yields an empty response list which is still sent before
the following chunk's text action. -/
theorem unknown_tool_calls_ignored_witness :
    (processChunksActions none ⟨[], []⟩
        [⟨[⟨"id1", "frobnicate", []⟩], [], [], ""⟩, ⟨[], [], [], "hello"⟩]).2 =
      [CoreAction.sendToolResponse [],
       CoreAction.emitText "hello", CoreAction.ttsPut (some "hello")] := by
  have h := (unknown_tool_calls_ignored none ⟨[], []⟩ []
    ⟨[⟨"id1", "frobnicate", []⟩], [], [], ""⟩ [⟨[], [], [], "hello"⟩]).2.2 (by decide)
  exact h.trans (by decide)

/-- An outbound message of the `AI_Core.tts` websocket: its `text`
payload and whether it carries the voice settings and the api key
(only the very first message of an utterance does). -/
structure TtsMsg where
  text : String
  voiceSettings : Bool
  apiKey : Bool
deriving DecidableEq, Repr

/-- The inner send loop of `AI_Core.tts` (lines 392–399), pulling from
the TTS input queue (modelled as the list of items it will deliver):
a text chunk is sent padded with a trailing space, the `None` sentinel
triggers the single finalize marker `{text: ""}` and the break. -/
def ttsInnerSends : List (Option String) → List TtsMsg
  | [] => []
  | none :: _ => [⟨"", false, false⟩]
  | some c :: rest => ⟨c ++ " ", false, false⟩ :: ttsInnerSends rest

/-- One iteration of the outer `while` loop of `AI_Core.tts` (lines
373–400): a leading sentinel is dropped without opening a socket;
otherwise a socket is opened, the initial message
`{text: " ", voice_settings, xi_api_key}` is sent, then the first chunk
padded, then the inner loop runs. -/
def ttsUtteranceSends : List (Option String) → List TtsMsg
  | [] => []
  | none :: _ => []
  | some c :: rest =>
    ⟨" ", true, true⟩ :: ⟨c ++ " ", false, false⟩ :: ttsInnerSends rest

/-- Padding a chunk with the trailing space gives a nonempty payload,
so no chunk message can be confused with the finalize marker. -/
theorem chunk_pad_ne_empty (c : String) : c ++ " " ≠ "" := by
  intro h
  have : (c ++ " ").data = [] := by rw [h]
  rw [String.data_append] at this
  exact absurd this (by simp)

/-- The inner loop on `chunks` followed by the sentinel sends each chunk
padded, in order, then exactly the finalize marker. -/
theorem ttsInnerSends_chunks (chunks : List String) :
    ttsInnerSends (chunks.map some ++ [none]) =
      chunks.map (fun c => (⟨c ++ " ", false, false⟩ : TtsMsg)) ++ [⟨"", false, false⟩] := by
  induction chunks with
  | nil => rfl
  | cons c cs ih =>
    show ttsInnerSends (some c :: (cs.map some ++ [none])) = _
    rw [ttsInnerSends, ih]
    rfl

/-- C3: for an utterance of text chunks followed by the sentinel, the
synthesis socket receives, in this exact order, one initial message
`{text: " "}` carrying the voice settings and api key, then one message
per chunk in FIFO order with the chunk text plus a trailing space, then
exactly one finalize marker `{text: ""}` after all chunk sends. -/
theorem tts_utterance_order (chunks : List String) (h : chunks ≠ []) :
    ttsUtteranceSends (chunks.map some ++ [none]) =
      ⟨" ", true, true⟩ ::
        (chunks.map (fun c => (⟨c ++ " ", false, false⟩ : TtsMsg)) ++
          [⟨"", false, false⟩]) ∧
    (ttsUtteranceSends (chunks.map some ++ [none])).countP
        (fun msg => msg.text == "") = 1 := by
  rcases chunks with _ | ⟨c, cs⟩
  · exact absurd rfl h
  · constructor
    · show ttsUtteranceSends (some c :: (cs.map some ++ [none])) = _
      rw [ttsUtteranceSends, ttsInnerSends_chunks]
      rfl
    · show (ttsUtteranceSends (some c :: (cs.map some ++ [none]))).countP _ = 1
      rw [ttsUtteranceSends, ttsInnerSends_chunks]
      rw [List.countP_cons, List.countP_cons, List.countP_append]
      have h1 : ∀ s : String, ((fun msg : TtsMsg => msg.text == "") ⟨s ++ " ", false, false⟩) = false := by
        intro s
        simpa using chunk_pad_ne_empty s
      have h2 : (cs.map (fun c => (⟨c ++ " ", false, false⟩ : TtsMsg))).countP
          (fun msg => msg.text == "") = 0 := by
        rw [List.countP_eq_zero]
        intro msg hmsg
        rcases List.mem_map.1 hmsg with ⟨s, _, rfl⟩
        simpa using chunk_pad_ne_empty s
      rw [h2]
      simp [h1 c]

/-- C3 witness: chunks ["Hello", " world"] then the sentinel produce the
socket texts " " (with settings and key), "Hello ", " world ", "". -/
theorem tts_utterance_order_witness :
    ttsUtteranceSends (["Hello", " world"].map some ++ [none]) =
      [⟨" ", true, true⟩, ⟨"Hello ", false, false⟩,
       ⟨" world ", false, false⟩, ⟨"", false, false⟩] := by
  have h := (tts_utterance_order ["Hello", " world"] (by decide)).1
  exact h.trans (by decide)

/-- One scheduled iteration of the `receive_text` outer loop: the
`is_running` flag as read at the `while` condition, whether the body
raised an exception, and the flag as read inside the `except` clause. -/
structure RecvIter where
  flagAtTop : Bool
  raises : Bool
  flagAtHandler : Bool
deriving DecidableEq, Repr

/-- Observable outcome of one `receive_text` loop iteration.  `crashed`
would mean an exception escaped the loop; the bare `except Exception`
handler of lines 336–338 gives it no producer. -/
inductive LoopEvent where
  | processedTurn
  | logged
  | exited
  | crashed
deriving DecidableEq, Repr

/-- The `receive_text` outer loop (lines 239–338) over a schedule of
iterations: stop when the flag is down; on an exception, break silently
if the flag went down, otherwise log the traceback and loop again. -/
def receiveLoopTrace : List RecvIter → List LoopEvent
  | [] => []
  | it :: rest =>
    if it.flagAtTop = false then [.exited]
    else if it.raises then
      if it.flagAtHandler = false then [.exited]
      else .logged :: receiveLoopTrace rest
    else .processedTurn :: receiveLoopTrace rest

/-- The receive loop never lets an exception escape. -/
theorem receiveLoopTrace_no_crash (its : List RecvIter) :
    LoopEvent.crashed ∉ receiveLoopTrace its := by
  induction its with
  | nil => simp [receiveLoopTrace]
  | cons it rest ih =>
    rw [receiveLoopTrace]
    by_cases h1 : it.flagAtTop = false
    · rw [if_pos h1]; simp
    · rw [if_neg h1]
      by_cases h2 : it.raises = true
      · rw [if_pos h2]
        by_cases h3 : it.flagAtHandler = false
        · rw [if_pos h3]; simp
        · rw [if_neg h3]
          simp only [List.mem_cons]
          rintro (h | h)
          · exact absurd h (by simp)
          · exact ih h
      · rw [if_neg h2]
        simp only [List.mem_cons]
        rintro (h | h)
        · exact absurd h (by simp)
        · exact ih h

/-- C6: an exception raised while receiving is logged and the loop
restarts on the next scheduled iteration when the running flag is still
true; when the flag is false (at the handler or at the loop top) the
loop exits; and no exception ever escapes the loop to terminate the
run. -/
theorem receive_loop_exception_handling (it : RecvIter) (rest : List RecvIter) :
    (it.flagAtTop = true → it.raises = true → it.flagAtHandler = true →
       receiveLoopTrace (it :: rest) = LoopEvent.logged :: receiveLoopTrace rest) ∧
    (it.flagAtTop = true → it.raises = true → it.flagAtHandler = false →
       receiveLoopTrace (it :: rest) = [LoopEvent.exited]) ∧
    (it.flagAtTop = false → receiveLoopTrace (it :: rest) = [LoopEvent.exited]) ∧
    (∀ its : List RecvIter, LoopEvent.crashed ∉ receiveLoopTrace its) := by
  refine ⟨?_, ?_, ?_, receiveLoopTrace_no_crash⟩
  · intro h1 h2 h3
    rw [receiveLoopTrace, if_neg (by simp [h1]), if_pos h2, if_neg (by simp [h3])]
  · intro h1 h2 h3
    rw [receiveLoopTrace, if_neg (by simp [h1]), if_pos h2, if_pos h3]
  · intro h1
    rw [receiveLoopTrace, if_pos h1]

/-- C6 witness: a raising iteration with the flag up logs and the loop
goes on to process the next turn; with the flag down it exits. -/
theorem receive_loop_exception_handling_witness :
    receiveLoopTrace [⟨true, true, true⟩, ⟨true, false, true⟩] =
      [LoopEvent.logged, LoopEvent.processedTurn] ∧
    receiveLoopTrace [⟨true, true, false⟩, ⟨true, false, true⟩] = [LoopEvent.exited] := by
  constructor
  · have h := (receive_loop_exception_handling ⟨true, true, true⟩
      [⟨true, false, true⟩]).1 rfl rfl rfl
    exact h.trans (by decide)
  · exact (receive_loop_exception_handling ⟨true, true, false⟩
      [⟨true, false, true⟩]).2.1 rfl rfl rfl

/-- One frame put on `out_queue_gemini`: its media type and payload
(audio pcm chunks from `listen_audio`, jpeg frames from
`send_frames_to_gemini`). -/
structure GeminiFrame where
  mimeType : String
  data : String
deriving DecidableEq, Repr

/-- `asyncio.Queue(maxsize=20)` — line 141. -/
def outQueueMaxsize : Nat := 20

/-- Global state of the outbound path: frames the producers still have
to put (in arrival order), the queue contents, and the frames already
sent to the session by `send_realtime`. -/
structure QState where
  pending : List GeminiFrame
  buf : List GeminiFrame
  sent : List GeminiFrame
deriving DecidableEq, Repr

/-- Interleaved execution steps of the outbound path: a producer
completes `await put` only when the queue holds fewer than 20 items
(otherwise it stays suspended — no frame is dropped), and the consumer
`await get` takes the front frame and sends it to the session. -/
inductive QStep : QState → QState → Prop
  | put (x : GeminiFrame) (rest buf sent : List GeminiFrame) :
      buf.length < outQueueMaxsize →
      QStep ⟨x :: rest, buf, sent⟩ ⟨rest, buf ++ [x], sent⟩
  | get (x : GeminiFrame) (pending buf sent : List GeminiFrame) :
      QStep ⟨pending, x :: buf, sent⟩ ⟨pending, buf, sent ++ [x]⟩

/-- C8: along any interleaving of producer puts and consumer gets
starting from `produced` pending frames and an empty queue, the queue
never exceeds its capacity of 20, the frames sent followed by those
still queued and those still pending are exactly `produced` in FIFO
order (no frame is lost or duplicated under backpressure), and once
producers are done and the queue is drained, the frames sent to the
session are exactly the frames produced. -/
theorem outbound_queue_no_loss (produced : List GeminiFrame) (s : QState)
    (h : Relation.ReflTransGen QStep ⟨produced, [], []⟩ s) :
    s.buf.length ≤ outQueueMaxsize ∧
    s.sent ++ s.buf ++ s.pending = produced ∧
    (s.pending = [] → s.buf = [] → s.sent = produced) := by
  have main : s.buf.length ≤ outQueueMaxsize ∧ s.sent ++ s.buf ++ s.pending = produced := by
    induction h with
    | refl => simp [outQueueMaxsize]
    | tail _ step ih =>
      rcases step with ⟨x, rest, buf, sent, hlt⟩ | ⟨x, pending, buf, sent⟩
      · refine ⟨by simpa using hlt, ?_⟩
        have h2 := ih.2
        simp only [] at h2 ⊢
        rw [← h2]
        simp
      · refine ⟨?_, ?_⟩
        · have h1 : (x :: buf).length ≤ outQueueMaxsize := ih.1
          show buf.length ≤ outQueueMaxsize
          simp only [List.length_cons] at h1
          omega
        · have h2 := ih.2
          simp only [] at h2 ⊢
          rw [← h2]
          simp
  refine ⟨main.1, main.2, ?_⟩
  intro hp hb
  have h2 := main.2
  rw [hp, hb] at h2
  simpa using h2

/-- C8 witness: two frames pushed and drained through the queue arrive
at the session complete and in order. -/
theorem outbound_queue_no_loss_witness :
    (QState.mk [] [] [⟨"audio/pcm", "a"⟩, ⟨"image/jpeg", "b"⟩]).sent =
      [⟨"audio/pcm", "a"⟩, ⟨"image/jpeg", "b"⟩] := by
  have d : Relation.ReflTransGen QStep
      ⟨[⟨"audio/pcm", "a"⟩, ⟨"image/jpeg", "b"⟩], [], []⟩
      ⟨[], [], [⟨"audio/pcm", "a"⟩, ⟨"image/jpeg", "b"⟩]⟩ :=
    Relation.ReflTransGen.head
      (QStep.put ⟨"audio/pcm", "a"⟩ [⟨"image/jpeg", "b"⟩] [] [] (by decide))
      (Relation.ReflTransGen.head
        (QStep.put ⟨"image/jpeg", "b"⟩ [] [⟨"audio/pcm", "a"⟩] [] (by decide))
        (Relation.ReflTransGen.head
          (QStep.get ⟨"audio/pcm", "a"⟩ [] [⟨"image/jpeg", "b"⟩] [])
          (Relation.ReflTransGen.head
            (QStep.get ⟨"image/jpeg", "b"⟩ [] [] [⟨"audio/pcm", "a"⟩])
            Relation.ReflTransGen.refl)))
  exact (outbound_queue_no_loss [⟨"audio/pcm", "a"⟩, ⟨"image/jpeg", "b"⟩]
    ⟨[], [], [⟨"audio/pcm", "a"⟩, ⟨"image/jpeg", "b"⟩]⟩ d).2.2 rfl rfl

/-- One iteration of `AI_Core.process_text_input_queue` (lines 356–369)
on the item pulled from the user-text queue, given whether a session is
live, the current TTS input queue and playback queue contents.  Returns
whether the loop keeps running, the two queue contents afterwards, and
the emitted actions: the `None` sentinel breaks the loop; with a live
session both queues are drained item by item (`get_nowait` until empty),
and only then is the text sent as client content (an empty text is
replaced by "."). -/
def process_text_input (sessionLive : Bool) (item : Option String)
    (ttsQ : List (Option String)) (playQ : List String) :
    Bool × List (Option String) × List String × List CoreAction :=
  match item with
  | none => (false, ttsQ, playQ, [])
  | some t =>
    if sessionLive then
      (true, [], [],
        ttsQ.map CoreAction.discardTts ++ playQ.map CoreAction.discardAudio ++
          [CoreAction.sendClientContent (if t = "" then "." else t)])
    else (true, ttsQ, playQ, [])

/-- C9: for every non-sentinel user text processed while a session is
live, both the TTS input queue and the playback queue are drained to
empty, and every discard happens before the single send of the text as
client content; pending synthesis text and unplayed audio of the
interrupted turn are exactly what is discarded. -/
theorem text_input_drains_queues (t : String) (ttsQ : List (Option String))
    (playQ : List String) :
    process_text_input true (some t) ttsQ playQ =
      (true, [], [],
        ttsQ.map CoreAction.discardTts ++ playQ.map CoreAction.discardAudio ++
          [CoreAction.sendClientContent (if t = "" then "." else t)]) ∧
    process_text_input false (some t) ttsQ playQ = (true, ttsQ, playQ, []) ∧
    process_text_input true none ttsQ playQ = (false, ttsQ, playQ, []) := by
  refine ⟨rfl, rfl, rfl⟩
